import Mathlib

/-!
Verification of the sequential tool-calling orchestrator in
`backend/ai_generator.py`.

The Python code drives a bounded loop of model calls: each round the model
endpoint is queried; if the response requests tool use, the requested tools
are executed and their results appended to the transcript, and the loop
advances; otherwise the response text is returned.  After budget exhaustion
with tools still pending, one forced tool-free call is made.

The embedding below is a direct shallow translation.  External collaborators
(the model endpoint `client.messages.create` and the tool executor
`tool_manager.execute_tool`) are modelled as oracles indexed by the number of
calls issued so far, returning `Except String _` (`.error` embeds a raised
exception).  Mutation of `ToolRoundState` becomes explicit state passing; a
ghost `Trace` additionally records the number of model/tool calls issued and
the request/response log, which the Python code does not store but which the
specification's countable properties refer to.
-/

set_option maxHeartbeats 1000000

/-- Tool input parameters: an opaque key-value mapping (the orchestrator never
inspects it, only passes it through). -/
abbrev ToolInput := List (String × String)

/-- One content block of a model response.  `text` blocks carry a `text`
attribute; `toolUse` blocks have `type == "tool_use"` with an id, tool name
and input; `other` stands for any further block kind (no `text` attribute,
type distinct from `"tool_use"`). -/
inductive ContentBlock : Type where
  | text (s : String)
  | toolUse (id : String) (name : String) (input : ToolInput)
  | other
deriving DecidableEq, Repr

/-- `content_block.type` in the Python code. -/
def ContentBlock.btype : ContentBlock → String
  | .text _ => "text"
  | .toolUse _ _ _ => "tool_use"
  | .other => "other"

/-- `hasattr(block, 'text')`: only plain text blocks carry a text field. -/
def ContentBlock.has_text_attr : ContentBlock → Bool
  | .text _ => true
  | _ => false

/-- A model response: `stop_reason` and the ordered content blocks. -/
structure ModelResponse : Type where
  stop_reason : String
  content : List ContentBlock
deriving DecidableEq, Repr

/-- One `{"type": "tool_result", ...}` entry fed back to the model. -/
structure ToolResult : Type where
  tool_use_id : String
  content : String
deriving DecidableEq, Repr

/-- The content of one transcript message: the initial user query is a plain
string, an assistant turn carries the response's content blocks, and a
tool-result turn carries the batch of tool results. -/
inductive MsgContent : Type where
  | str (s : String)
  | blocks (bs : List ContentBlock)
  | results (rs : List ToolResult)
deriving DecidableEq, Repr

/-- A role-tagged transcript message. -/
structure Message : Type where
  role : String
  content : MsgContent
deriving DecidableEq, Repr

/-- The request data handed to `client.messages.create`: the messages copy,
the system string, and whether tool descriptors were included. -/
structure ModelRequest : Type where
  messages : List Message
  system : String
  tools : Bool
deriving DecidableEq, Repr

/-- A recorded tool execution (`add_tool_execution`). -/
structure ToolExecution : Type where
  round : Nat
  tool_name : String
  input : ToolInput
  result : String
deriving DecidableEq, Repr

/-- The external collaborators, as oracles.  `model i req` is the outcome of
the `i`-th call to `client.messages.create` (0-based, `.error` = transport
exception); `execTool j name input` is the outcome of the `j`-th call to
`tool_manager.execute_tool` (`.error` = raised exception).  `tools` is the
truthiness of the `tools` argument, `tool_manager` that of `tool_manager`. -/
structure Env : Type where
  model : Nat → ModelRequest → Except String ModelResponse
  execTool : Nat → String → ToolInput → Except String String
  tools : Bool
  tool_manager : Bool

/-- Direct translation of the `ToolRoundState` dataclass. -/
structure ToolRoundState : Type where
  current_round : Nat
  max_rounds : Nat
  tool_execution_history : List ToolExecution
  messages : List Message
  system_content : String
  has_errors : Bool
deriving DecidableEq, Repr

/-- `ToolRoundState.can_continue`. -/
def ToolRoundState.can_continue (s : ToolRoundState) : Bool :=
  decide (s.current_round ≤ s.max_rounds) && !s.has_errors

/-- `ToolRoundState.advance_round`. -/
def ToolRoundState.advance_round (s : ToolRoundState) : ToolRoundState :=
  { s with current_round := s.current_round + 1 }

/-- `ToolRoundState.add_tool_execution`. -/
def ToolRoundState.add_tool_execution (s : ToolRoundState) (tool_name : String)
    (tool_input : ToolInput) (tool_result : String) : ToolRoundState :=
  { s with tool_execution_history := s.tool_execution_history ++
      [{ round := s.current_round, tool_name := tool_name,
         input := tool_input, result := tool_result }] }

/-- Ghost instrumentation threaded with the round state: the counts of model
endpoint calls and tool executor invocations issued so far, and the logs of
requests issued and (successful) responses received. -/
structure Trace : Type where
  state : ToolRoundState
  modelCalls : Nat
  toolCalls : Nat
  requests : List ModelRequest
  responses : List ModelResponse
deriving DecidableEq, Repr

/-- `SYSTEM_PROMPT`, verbatim (the orchestrator never inspects it, only
concatenates it into the system string). -/
def SYSTEM_PROMPT : String :=
  " You are an AI assistant specialized in course materials and educational content with access to comprehensive search and outline tools.\n\nTool Usage Guidelines:\n- **Course outline queries**: Use the get_course_outline tool for questions about course structure, lesson lists, or course overviews\n- **Content-specific questions**: Use the search_course_content tool for questions about specific course content or detailed educational materials\n- **Sequential tool calling**: You can make up to 2 sequential tool calls to handle complex queries\n- **Reason about previous tool results**: Use information from previous tool calls to inform subsequent searches\n- **Multi-step queries**: Use multiple rounds for complex queries requiring different information sources or comparisons\n- Synthesize tool results into accurate, fact-based responses\n- If tools yield no results, state this clearly without offering alternatives\n\nTool Selection:\n- **get_course_outline**: For \"what lessons are in...\", \"course outline for...\", \"course structure of...\", \"what does [course] cover\"\n- **search_course_content**: For specific concepts, code examples, detailed explanations, or lesson content\n\nSequential Tool Examples:\n- \"Search for a course that discusses the same topic as lesson 4 of course X\" → get outline for course X → search for similar topics\n- \"Compare the approach in course A with course B\" → search content in course A → search content in course B\n- \"What advanced topics does the MCP course cover after the basics?\" → get course outline → search for advanced content\n\nResponse Protocol:\n- **General knowledge questions**: Answer using existing knowledge without using tools\n- **Course outline questions**: Use get_course_outline tool, then provide complete course title, course link, and numbered lesson list\n- **Course content questions**: Use search_course_content tool, then answer based on retrieved content\n- **Multi-step questions**: Use sequential tool calls to gather all needed information\n- **No meta-commentary**:\n - Provide direct answers only — no reasoning process, tool explanations, or question-type analysis\n - Do not mention \"based on the search results\" or \"using the tool\"\n\nAll responses must be:\n1. **Brief, Concise and focused** - Get to the point quickly\n2. **Educational** - Maintain instructional value\n3. **Clear** - Use accessible language\n4. **Example-supported** - Include relevant examples when they aid understanding\nProvide only the direct answer to what was asked.\n"

/-- System-content construction shared by both generation paths: the base
prompt, suffixed with the conversation history when one is given (Python
truthiness: an empty history string behaves like `None`). -/
def build_system_content (conversation_history : Option String) : String :=
  match conversation_history with
  | some h =>
      if h.isEmpty then SYSTEM_PROMPT
      else SYSTEM_PROMPT ++ "\n\nPrevious conversation:\n" ++ h
  | none => SYSTEM_PROMPT

/-- `_has_tool_calls`: any content block of type `"tool_use"`. -/
def has_tool_calls (response : ModelResponse) : Bool :=
  response.content.any (fun b => b.btype == "tool_use")

/-- The scan of `_extract_text_response`: first block with a `text`
attribute, else the diagnostic placeholder. -/
def extract_first_text : List ContentBlock → String
  | [] => "Error: No valid response content received from AI."
  | .text s :: _ => s
  | _ :: rest => extract_first_text rest

/-- `_extract_text_response` (also models the `None` argument case). -/
def extract_text_response : Option ModelResponse → String
  | some r => extract_first_text r.content
  | none => "Error: No valid response content received from AI."

/-- The `api_params` built in `_execute_tool_round`: the current messages
(copied) and system content; tool descriptors included only when tools were
supplied and the round budget is not exceeded. -/
def round_request (env : Env) (st : ToolRoundState) : ModelRequest :=
  { messages := st.messages, system := st.system_content,
    tools := env.tools && decide (st.current_round ≤ st.max_rounds) }

/-- Result of the tool-dispatch loop inside `_execute_tool_round`:
the collected `tool_results` batch, the updated round state, and the updated
count of executor invocations. -/
structure ToolLoopOut : Type where
  results : List ToolResult
  state : ToolRoundState
  toolIdx : Nat

/-- The `for content_block in response.content:` loop of
`_execute_tool_round`: each `tool_use` block is dispatched to the executor in
order; a success is recorded (`add_tool_execution`) and appended to the
batch; an exception marks the state errored and breaks out, keeping the
results collected so far. -/
def run_tool_blocks (env : Env) (st : ToolRoundState) (toolIdx : Nat) :
    List ContentBlock → ToolLoopOut
  | [] => { results := [], state := st, toolIdx := toolIdx }
  | .toolUse id name input :: rest =>
      (match env.execTool toolIdx name input with
       | .ok r =>
           let st1 := st.add_tool_execution name input r
           let out := run_tool_blocks env st1 (toolIdx + 1) rest
           { results := { tool_use_id := id, content := r } :: out.results,
             state := out.state, toolIdx := out.toolIdx }
       | .error _ =>
           { results := [], state := { st with has_errors := true },
             toolIdx := toolIdx + 1 })
  | _ :: rest => run_tool_blocks env st toolIdx rest

/-- The state extended with the assistant turn carrying the tool-use
response (`round_state.messages.append({"role": "assistant", ...})`). -/
def with_assistant_turn (st : ToolRoundState) (response : ModelResponse) :
    ToolRoundState :=
  { st with messages := st.messages ++
      [{ role := "assistant", content := .blocks response.content }] }

/-- The tool-dispatch phase of `_execute_tool_round`, entered when
`response.stop_reason == "tool_use" and tool_manager`: append the assistant
turn, run the tool loop, and append the collected batch as a single user
turn when non-empty. -/
def tool_phase (env : Env) (response : ModelResponse) (tr1 : Trace) : Trace :=
  if response.stop_reason == "tool_use" && env.tool_manager then
    let st1 := with_assistant_turn tr1.state response
    let out := run_tool_blocks env st1 tr1.toolCalls response.content
    let st2 :=
      if out.results.isEmpty then out.state
      else { out.state with messages := out.state.messages ++
          [{ role := "user", content := .results out.results }] }
    { tr1 with state := st2, toolCalls := out.toolIdx }
  else tr1

/-- `_execute_tool_round`: one model call; if it requests tool use (and a
tool manager is present) the assistant turn is appended, the tools are run,
and a non-empty result batch is appended as a single user turn.  A transport
exception from the model call propagates (`.error`), carrying the ghost trace
at the raise point. -/
def execute_tool_round (env : Env) (tr : Trace) :
    Except (String × Trace) (ModelResponse × Trace) :=
  let req := round_request env tr.state
  match env.model tr.modelCalls req with
  | .error e =>
      .error (e, { tr with modelCalls := tr.modelCalls + 1,
                           requests := tr.requests ++ [req] })
  | .ok response =>
      let tr1 : Trace :=
        { tr with modelCalls := tr.modelCalls + 1,
                  requests := tr.requests ++ [req],
                  responses := tr.responses ++ [response] }
      .ok (response, tool_phase env response tr1)

/-- `_get_final_response`: one model call with the accumulated messages and
system content but no tool descriptors; a transport exception is caught
locally and converted into an error string. -/
def get_final_response (env : Env) (tr : Trace) : String × Trace :=
  let req : ModelRequest :=
    { messages := tr.state.messages, system := tr.state.system_content,
      tools := false }
  match env.model tr.modelCalls req with
  | .ok resp =>
      (extract_text_response (some resp),
       { tr with modelCalls := tr.modelCalls + 1,
                 requests := tr.requests ++ [req],
                 responses := tr.responses ++ [resp] })
  | .error e =>
      ("Error generating final response: " ++ e,
       { tr with modelCalls := tr.modelCalls + 1,
                 requests := tr.requests ++ [req] })

/-- The post-loop code of `generate_response_with_sequential_tools`: if the
last response still had tool calls, make the forced tool-free final call;
otherwise return its extracted text, or the no-response placeholder if no
response was ever obtained. -/
def post_loop (env : Env) (tr : Trace) (last : Option ModelResponse) :
    Except (String × Trace) (String × Trace) :=
  match last with
  | some lr =>
      if has_tool_calls lr then .ok (get_final_response env tr)
      else .ok (extract_text_response (some lr), tr)
  | none => .ok ("Error: No response received", tr)

/-- The `while round_state.can_continue():` loop.  A response object is
always truthy in Python, so the `if response and ...` tests reduce to the
tool-call check and the `has_errors = True; break` arm at the loop's end is
unreachable.  The loop body runs at most `max_rounds` times (the round
number starts at 1 and strictly increases), so the structural `fuel`
argument — instantiated with `max_rounds` by the entry point, an upper bound
on the remaining iterations `max_rounds + 1 - current_round` — never reaches
0 with `can_continue` still true; both the fuel-exhausted and the
condition-false branch fall through to the post-loop code
(`seq_loop_fuel_irrelevant` below makes the faithfulness precise). -/
def seq_loop (env : Env) : Nat → Trace → Option ModelResponse →
    Except (String × Trace) (String × Trace)
  | 0, tr, last => post_loop env tr last
  | fuel + 1, tr, last =>
      if tr.state.can_continue then
        match execute_tool_round env tr with
        | .error etr => .error etr
        | .ok (response, tr1) =>
            if has_tool_calls response then
              seq_loop env fuel
                { tr1 with state := tr1.state.advance_round } (some response)
            else
              .ok (extract_text_response (some response), tr1)
      else post_loop env tr last

/-- The round state as initialized by
`generate_response_with_sequential_tools`. -/
def init_round_state (query : String) (conversation_history : Option String)
    (max_rounds : Nat) : ToolRoundState :=
  { current_round := 1, max_rounds := max_rounds,
    tool_execution_history := [],
    messages := [{ role := "user", content := .str query }],
    system_content := build_system_content conversation_history,
    has_errors := false }

/-- The initial ghost trace: no calls issued yet. -/
def init_trace (query : String) (conversation_history : Option String)
    (max_rounds : Nat) : Trace :=
  { state := init_round_state query conversation_history max_rounds,
    modelCalls := 0, toolCalls := 0, requests := [], responses := [] }

/-- `generate_response_with_sequential_tools`: run the loop; the surrounding
`try/except` converts any exception that escapes the loop (only the model
call inside `_execute_tool_round` can raise one) into an error string. -/
def generate_response_with_sequential_tools (env : Env) (query : String)
    (conversation_history : Option String) (max_rounds : Nat) :
    String × Trace :=
  match seq_loop env max_rounds (init_trace query conversation_history max_rounds) none with
  | .ok (s, tr) => (s, tr)
  | .error (e, tr) => ("Error during sequential tool execution: " ++ e, tr)

/-- The trace carried by either outcome of the loop. -/
def out_trace : Except (String × Trace) (String × Trace) → Trace
  | .ok (_, t) => t
  | .error (_, t) => t


/-! ### The single-call path (`generate_response`) -/

/-- The `api_params` of `generate_response`. -/
def direct_request (env : Env) (query : String) (system_content : String) :
    ModelRequest :=
  { messages := [{ role := "user", content := .str query }],
    system := system_content, tools := env.tools }

/-- The tool loop of `_handle_tool_execution`: identical dispatch order to
`run_tool_blocks`, but with NO exception handler around `execute_tool`, so a
raised exception propagates (`.error`). -/
def run_tools_unprotected (env : Env) :
    Nat → List ContentBlock → Except String (List ToolResult × Nat)
  | toolIdx, [] => .ok ([], toolIdx)
  | toolIdx, .toolUse id name input :: rest =>
      (match env.execTool toolIdx name input with
       | .ok r =>
           (match run_tools_unprotected env (toolIdx + 1) rest with
            | .ok (rs, i) =>
                .ok ({ tool_use_id := id, content := r } :: rs, i)
            | .error e => .error e)
       | .error e => .error e)
  | toolIdx, _ :: rest => run_tools_unprotected env toolIdx rest

/-- `_handle_tool_execution`: append the assistant turn, execute all tool
calls (unprotected), append the batch, and make one follow-up model call
without tools; that call's first content block must carry a text field, else
a placeholder is returned.  Either external failure propagates. -/
def handle_tool_execution (env : Env) (initial : ModelResponse)
    (base_messages : List Message) (system_content : String)
    (modelCalls : Nat) : Except String String :=
  let messages := base_messages ++
    [{ role := "assistant", content := .blocks initial.content }]
  match run_tools_unprotected env 0 initial.content with
  | .error e => .error e
  | .ok (tool_results, _) =>
      let messages2 :=
        if tool_results.isEmpty then messages
        else messages ++
          [{ role := "user", content := .results tool_results }]
      match env.model modelCalls
          { messages := messages2, system := system_content,
            tools := false } with
      | .error e => .error e
      | .ok final_response =>
          .ok (match final_response.content with
               | .text s :: _ => s
               | _ =>
                 "Error: No valid response content received from AI after tool execution.")

/-- `generate_response` (the single-call path): one model call; on a
tool-use response with a tool manager, delegate to `_handle_tool_execution`
with no exception handling anywhere on the path; otherwise return the first
block's text (or a placeholder). -/
def generate_response (env : Env) (query : String)
    (conversation_history : Option String) : Except String String :=
  let system_content := build_system_content conversation_history
  match env.model 0 (direct_request env query system_content) with
  | .error e => .error e
  | .ok response =>
      if response.stop_reason == "tool_use" && env.tool_manager then
        handle_tool_execution env response
          [{ role := "user", content := .str query }] system_content 1
      else
        .ok (match response.content with
             | .text s :: _ => s
             | _ => "Error: No valid response content received from AI.")

/-! ### Tool-failure anatomy inside one round -/

/-- Number of `tool_use` blocks in a content list, i.e. the number of
executor invocations the round's dispatch loop performs when none fails. -/
def tool_use_count : List ContentBlock → Nat
  | [] => 0
  | .toolUse _ _ _ :: rest => tool_use_count rest + 1
  | _ :: rest => tool_use_count rest

/-- Every `tool_use` block of the list succeeds when dispatched in order
starting from executor invocation index `idx`. -/
def all_tools_succeed (env : Env) : Nat → List ContentBlock → Prop
  | _, [] => True
  | idx, .toolUse _ name input :: rest =>
      (∃ r, env.execTool idx name input = .ok r) ∧
        all_tools_succeed env (idx + 1) rest
  | idx, _ :: rest => all_tools_succeed env idx rest

/-! ### Diagnostic strings -/

/-- A diagnostic placeholder: a string carrying the fixed prefix `"Error"`.
Every degraded-path return value of the orchestrator has this shape. -/
def diagnostic (s : String) : Prop := ∃ t, s = "Error" ++ t

/-- `s` is a text carried by a content block of a model response logged in
the trace. -/
def model_text (tr : Trace) (s : String) : Prop :=
  ∃ r, r ∈ tr.responses ∧ ContentBlock.text s ∈ r.content

/-- A text block is non-empty (used to state when the model itself never
returns empty text). -/
def block_text_nonempty : ContentBlock → Bool
  | .text s => !s.isEmpty
  | _ => true

/-! ### Concrete scripted collaborators used as witnesses -/

/-- A response requesting one tool, with a leading text block. -/
def respToolText : ModelResponse :=
  { stop_reason := "tool_use",
    content := [.text "partial", .toolUse "id1" "search" [("query", "x")]] }

/-- A plain final text response. -/
def respPlainFinal : ModelResponse :=
  { stop_reason := "end_turn", content := [.text "final"] }

/-- A response requesting two tools. -/
def respTwoTools : ModelResponse :=
  { stop_reason := "tool_use",
    content := [.toolUse "a" "t1" [], .toolUse "b" "t2" []] }

/-- Endpoint always answers with plain text; tools never requested. -/
def envDirect : Env :=
  { model := fun _ _ => .ok respPlainFinal,
    execTool := fun _ _ _ => .ok "r",
    tools := true, tool_manager := true }

/-- Endpoint transport is down on every call. -/
def envTransportDown : Env :=
  { model := fun _ _ => .error "down",
    execTool := fun _ _ _ => .ok "r",
    tools := true, tool_manager := true }

/-- First call requests a tool; the executor raises; the follow-up call
answers with plain text. -/
def envToolFail : Env :=
  { model := fun i _ => if i = 0 then .ok respToolText else .ok respPlainFinal,
    execTool := fun _ _ _ => .error "boom",
    tools := true, tool_manager := true }

/-- Endpoint returns an empty text block. -/
def envEmptyText : Env :=
  { model := fun _ _ => .ok { stop_reason := "end_turn", content := [.text ""] },
    execTool := fun _ _ _ => .ok "r",
    tools := true, tool_manager := true }

/-- Endpoint returns a malformed response: one block with no text field and
a type other than tool use. -/
def envMalformed : Env :=
  { model := fun _ _ => .ok { stop_reason := "end_turn", content := [.other] },
    execTool := fun _ _ _ => .ok "r",
    tools := true, tool_manager := true }

/-- Endpoint requests two tools; the first execution succeeds, the second
raises. -/
def envSecondToolFails : Env :=
  { model := fun _ _ => .ok respTwoTools,
    execTool := fun idx _ _ => if idx = 0 then .ok "r0" else .error "boom",
    tools := true, tool_manager := true }

/-- The ghost trace right after the first successful model call of a run of
`generate_response_with_sequential_tools envToolFail "q" none 2`. -/
def trToolFailMid : Trace :=
  { state := init_round_state "q" none 2, modelCalls := 1, toolCalls := 0,
    requests := [round_request envToolFail (init_round_state "q" none 2)],
    responses := [respToolText] }

/-- Same for `envDirect`. -/
def trDirectMid : Trace :=
  { state := init_round_state "q" none 2, modelCalls := 1, toolCalls := 0,
    requests := [round_request envDirect (init_round_state "q" none 2)],
    responses := [respPlainFinal] }

/-- A trace whose round budget is already exhausted (`current_round = 3 >
2 = max_rounds`), as the loop leaves it after two tool rounds. -/
def trBudgetSpent : Trace :=
  { state := { current_round := 3, max_rounds := 2,
               tool_execution_history := [],
               messages := [{ role := "user", content := .str "q" }],
               system_content := "sys", has_errors := false },
    modelCalls := 2, toolCalls := 2, requests := [], responses := [respToolText] }

/-! ### Basic preservation lemmas -/

theorem run_tool_blocks_preserves (env : Env) (bs : List ContentBlock) :
    ∀ (st : ToolRoundState) (idx : Nat),
      (run_tool_blocks env st idx bs).state.current_round = st.current_round ∧
      (run_tool_blocks env st idx bs).state.max_rounds = st.max_rounds ∧
      (run_tool_blocks env st idx bs).state.messages = st.messages ∧
      (run_tool_blocks env st idx bs).state.system_content = st.system_content := by
  induction bs with
  | nil => intro st idx; simp [run_tool_blocks]
  | cons b rest ih =>
    intro st idx
    cases b with
    | text s => simpa [run_tool_blocks] using ih st idx
    | other => simpa [run_tool_blocks] using ih st idx
    | toolUse id name input =>
      cases h : env.execTool idx name input with
      | ok r =>
        simpa [run_tool_blocks, h, ToolRoundState.add_tool_execution]
          using ih (st.add_tool_execution name input r) (idx + 1)
      | error e => simp [run_tool_blocks, h]

theorem tool_phase_preserves (env : Env) (response : ModelResponse) (tr1 : Trace) :
    (tool_phase env response tr1).state.current_round = tr1.state.current_round ∧
    (tool_phase env response tr1).state.max_rounds = tr1.state.max_rounds ∧
    (tool_phase env response tr1).state.system_content = tr1.state.system_content ∧
    (tool_phase env response tr1).modelCalls = tr1.modelCalls ∧
    (tool_phase env response tr1).responses = tr1.responses ∧
    (tool_phase env response tr1).requests = tr1.requests := by
  have hpres := run_tool_blocks_preserves env response.content
    (with_assistant_turn tr1.state response) tr1.toolCalls
  simp only [tool_phase]
  split
  · split
    · simp_all [with_assistant_turn]
    · simp_all [with_assistant_turn]
  · simp

theorem tool_phase_messages_shape (env : Env) (response : ModelResponse)
    (tr1 : Trace) :
    (tool_phase env response tr1).state.messages = tr1.state.messages ∨
    (tool_phase env response tr1).state.messages = tr1.state.messages ++
      [{ role := "assistant", content := .blocks response.content }] ∨
    ∃ batch, batch ≠ [] ∧ (tool_phase env response tr1).state.messages =
      tr1.state.messages ++
      [{ role := "assistant", content := .blocks response.content },
       { role := "user", content := .results batch }] := by
  have hpres := (run_tool_blocks_preserves env response.content
    (with_assistant_turn tr1.state response) tr1.toolCalls).2.2.1
  simp only [tool_phase]
  split
  · split
    · right; left
      simp_all [with_assistant_turn]
    · right; right
      refine ⟨(run_tool_blocks env (with_assistant_turn tr1.state response)
          tr1.toolCalls response.content).results, by simp_all, ?_⟩
      simp_all [with_assistant_turn]
  · left; rfl

theorem execute_tool_round_error_facts (env : Env) (tr tr1 : Trace) (e : String) :
    execute_tool_round env tr = .error (e, tr1) →
      tr1.modelCalls = tr.modelCalls + 1 ∧ tr1.state = tr.state := by
  intro heq
  cases h : env.model tr.modelCalls (round_request env tr.state) with
  | error e1 =>
    simp only [execute_tool_round, h, Except.error.injEq, Prod.mk.injEq] at heq
    obtain ⟨-, ht⟩ := heq
    subst ht
    simp
  | ok response =>
    simp only [execute_tool_round, h] at heq
    simp at heq

theorem execute_tool_round_ok_facts (env : Env) (tr tr1 : Trace)
    (resp : ModelResponse) :
    execute_tool_round env tr = .ok (resp, tr1) →
      tr1.modelCalls = tr.modelCalls + 1 ∧
      tr1.state.current_round = tr.state.current_round ∧
      tr1.state.max_rounds = tr.state.max_rounds ∧
      tr1.state.system_content = tr.state.system_content ∧
      tr1.responses = tr.responses ++ [resp] := by
  intro heq
  cases h : env.model tr.modelCalls (round_request env tr.state) with
  | error e1 =>
    simp only [execute_tool_round, h] at heq
    simp at heq
  | ok response =>
    simp only [execute_tool_round, h, Except.ok.injEq, Prod.mk.injEq] at heq
    obtain ⟨hresp, htr⟩ := heq
    subst hresp
    subst htr
    have hp := tool_phase_preserves env response
      { tr with modelCalls := tr.modelCalls + 1,
                requests := tr.requests ++ [round_request env tr.state],
                responses := tr.responses ++ [response] }
    simp_all

theorem execute_tool_round_messages_shape (env : Env) (tr tr1 : Trace)
    (resp : ModelResponse) :
    execute_tool_round env tr = .ok (resp, tr1) →
      tr1.state.messages = tr.state.messages ∨
      tr1.state.messages = tr.state.messages ++
        [{ role := "assistant", content := .blocks resp.content }] ∨
      ∃ batch, batch ≠ [] ∧ tr1.state.messages = tr.state.messages ++
        [{ role := "assistant", content := .blocks resp.content },
         { role := "user", content := .results batch }] := by
  intro heq
  cases h : env.model tr.modelCalls (round_request env tr.state) with
  | error e1 =>
    simp only [execute_tool_round, h] at heq
    simp at heq
  | ok response =>
    simp only [execute_tool_round, h, Except.ok.injEq, Prod.mk.injEq] at heq
    obtain ⟨hresp, htr⟩ := heq
    subst hresp
    subst htr
    have hp := tool_phase_messages_shape env response
      { tr with modelCalls := tr.modelCalls + 1,
                requests := tr.requests ++ [round_request env tr.state],
                responses := tr.responses ++ [response] }
    simpa using hp

theorem execute_tool_round_messages_extend (env : Env) (tr tr1 : Trace)
    (resp : ModelResponse) :
    execute_tool_round env tr = .ok (resp, tr1) →
      ∃ suf, tr1.state.messages = tr.state.messages ++ suf := by
  intro heq
  rcases execute_tool_round_messages_shape env tr tr1 resp heq with h | h | ⟨b, -, h⟩
  · exact ⟨[], by simpa using h⟩
  · exact ⟨_, h⟩
  · exact ⟨_, h⟩

theorem get_final_response_facts (env : Env) (tr : Trace) :
    (get_final_response env tr).2.modelCalls = tr.modelCalls + 1 ∧
    (get_final_response env tr).2.state = tr.state ∧
    (get_final_response env tr).2.requests = tr.requests ++
      [{ messages := tr.state.messages, system := tr.state.system_content,
         tools := false }] ∧
    (∀ resp, env.model tr.modelCalls
        { messages := tr.state.messages, system := tr.state.system_content,
          tools := false } = .ok resp →
      (get_final_response env tr).1 = extract_text_response (some resp) ∧
      (get_final_response env tr).2.responses = tr.responses ++ [resp]) ∧
    (∀ e, env.model tr.modelCalls
        { messages := tr.state.messages, system := tr.state.system_content,
          tools := false } = .error e →
      (get_final_response env tr).1 = "Error generating final response: " ++ e ∧
      (get_final_response env tr).2.responses = tr.responses) := by
  cases h : env.model tr.modelCalls
      { messages := tr.state.messages, system := tr.state.system_content,
        tools := false } with
  | ok resp =>
    refine ⟨?_, ?_, ?_, ?_, ?_⟩ <;>
      simp_all [get_final_response]
  | error e =>
    refine ⟨?_, ?_, ?_, ?_, ?_⟩ <;>
      simp_all [get_final_response]

/-! ### Strings returned by the orchestrator -/

theorem diagnostic_no_valid :
    diagnostic "Error: No valid response content received from AI." :=
  ⟨": No valid response content received from AI.", by decide⟩

theorem diagnostic_no_response : diagnostic "Error: No response received" :=
  ⟨": No response received", by decide⟩

theorem diagnostic_final_err (e : String) :
    diagnostic ("Error generating final response: " ++ e) :=
  ⟨" generating final response: " ++ e, by
    rw [← String.append_assoc]
    congr 1⟩

theorem diagnostic_seq_err (e : String) :
    diagnostic ("Error during sequential tool execution: " ++ e) :=
  ⟨" during sequential tool execution: " ++ e, by
    rw [← String.append_assoc]
    congr 1⟩

theorem diagnostic_ne_empty (s : String) : diagnostic s → s ≠ "" := by
  rintro ⟨t, rfl⟩ h
  have hlen : ("Error" ++ t).length = (0 : Nat) := by rw [h]; rfl
  rw [String.length_append] at hlen
  have : ("Error" : String).length = 5 := by decide
  omega

theorem extract_first_text_diag_or_mem (bs : List ContentBlock) :
    diagnostic (extract_first_text bs) ∨
    ContentBlock.text (extract_first_text bs) ∈ bs := by
  induction bs with
  | nil => exact Or.inl diagnostic_no_valid
  | cons b rest ih =>
    cases b with
    | text s => right; simp [extract_first_text]
    | toolUse id name input =>
      rcases ih with h | h
      · exact Or.inl (by simpa [extract_first_text] using h)
      · right; simp only [extract_first_text]; exact List.mem_cons_of_mem _ h
    | other =>
      rcases ih with h | h
      · exact Or.inl (by simpa [extract_first_text] using h)
      · right; simp only [extract_first_text]; exact List.mem_cons_of_mem _ h

/-! ### The round loop: unfolding and invariants -/

theorem seq_loop_succ (env : Env) (fuel : Nat) (tr : Trace)
    (last : Option ModelResponse) :
    seq_loop env (fuel + 1) tr last =
      if tr.state.can_continue then
        match execute_tool_round env tr with
        | .error etr => .error etr
        | .ok (response, tr1) =>
            if has_tool_calls response then
              seq_loop env fuel
                { tr1 with state := tr1.state.advance_round } (some response)
            else
              .ok (extract_text_response (some response), tr1)
      else post_loop env tr last := rfl

theorem seq_loop_zero (env : Env) (tr : Trace) (last : Option ModelResponse) :
    seq_loop env 0 tr last = post_loop env tr last := rfl

/-- The structural fuel is faithful to the `while` loop: any fuel at least
`max_rounds + 1 - current_round` (an upper bound on the remaining loop
iterations) yields the same outcome, so the entry point's choice
`fuel = max_rounds` computes exactly the Python loop. -/
theorem seq_loop_fuel_irrelevant (env : Env) :
    ∀ (fuel : Nat) (tr : Trace) (last : Option ModelResponse),
      tr.state.max_rounds + 1 ≤ fuel + tr.state.current_round →
      seq_loop env fuel tr last = seq_loop env (fuel + 1) tr last := by
  intro fuel
  induction fuel with
  | zero =>
    intro tr last hge
    have hcc : tr.state.can_continue = false := by
      simp only [ToolRoundState.can_continue, Bool.and_eq_false_iff,
        decide_eq_false_iff_not]
      left; omega
    rw [seq_loop_zero, seq_loop_succ, if_neg (by simp [hcc])]
  | succ fuel ih =>
    intro tr last hge
    rw [seq_loop_succ, seq_loop_succ env (fuel + 1)]
    by_cases hc : tr.state.can_continue = true
    · rw [if_pos hc, if_pos hc]
      cases hrun : execute_tool_round env tr with
      | error etr => rfl
      | ok rt =>
        obtain ⟨resp, tr1⟩ := rt
        dsimp only
        have hfacts := execute_tool_round_ok_facts env tr tr1 resp hrun
        by_cases ht : has_tool_calls resp = true
        · rw [if_pos ht, if_pos ht]
          exact ih { tr1 with state := tr1.state.advance_round } (some resp)
            (by simp [ToolRoundState.advance_round, hfacts.2.1, hfacts.2.2.1]; omega)
        · rw [if_neg ht, if_neg ht]
    · rw [if_neg hc, if_neg hc]

theorem post_loop_model_calls (env : Env) (tr : Trace)
    (last : Option ModelResponse) :
    (out_trace (post_loop env tr last)).modelCalls ≤ tr.modelCalls + 1 := by
  cases last with
  | none => simp [post_loop, out_trace]
  | some lr =>
    by_cases h : has_tool_calls lr = true
    · simp [post_loop, h, out_trace, (get_final_response_facts env tr).1]
    · simp [post_loop, h, out_trace]

/-- Each unit of fuel pays for at most one model call inside the loop; the
post-loop adds at most the one forced final call. -/
theorem seq_loop_model_calls_bound (env : Env) :
    ∀ (fuel : Nat) (tr : Trace) (last : Option ModelResponse),
      (out_trace (seq_loop env fuel tr last)).modelCalls ≤
        tr.modelCalls + fuel + 1 := by
  intro fuel
  induction fuel with
  | zero =>
    intro tr last
    simpa [seq_loop_zero] using post_loop_model_calls env tr last
  | succ fuel ih =>
    intro tr last
    rw [seq_loop_succ]
    by_cases hc : tr.state.can_continue = true
    · rw [if_pos hc]
      cases hrun : execute_tool_round env tr with
      | error etr =>
        obtain ⟨e, tr1⟩ := etr
        dsimp only
        have h1 := (execute_tool_round_error_facts env tr tr1 e hrun).1
        simp only [out_trace]
        omega
      | ok rt =>
        obtain ⟨resp, tr1⟩ := rt
        dsimp only
        have h1 := (execute_tool_round_ok_facts env tr tr1 resp hrun).1
        by_cases ht : has_tool_calls resp = true
        · rw [if_pos ht]
          have h2 := ih { tr1 with state := tr1.state.advance_round } (some resp)
          simp only at h2
          omega
        · rw [if_neg ht]
          simp only [out_trace]
          omega
    · rw [if_neg hc]
      have := post_loop_model_calls env tr last
      omega

theorem model_text_mono (tr tr2 : Trace) (s : String)
    (h : ∃ suf, tr2.responses = tr.responses ++ suf) :
    model_text tr s → model_text tr2 s := by
  rintro ⟨r, hr, hb⟩
  obtain ⟨suf, hsuf⟩ := h
  exact ⟨r, by simp [hsuf, hr], hb⟩

theorem get_final_response_diag_or_text (env : Env) (tr : Trace) :
    diagnostic (get_final_response env tr).1 ∨
    model_text (get_final_response env tr).2 (get_final_response env tr).1 := by
  cases hm : env.model tr.modelCalls
      { messages := tr.state.messages, system := tr.state.system_content,
        tools := false } with
  | ok resp =>
    rcases extract_first_text_diag_or_mem resp.content with hd | hmem
    · left
      simpa [get_final_response, hm, extract_text_response] using hd
    · right
      refine ⟨resp, ?_, ?_⟩
      · simp [get_final_response, hm]
      · simpa [get_final_response, hm, extract_text_response] using hmem
  | error e =>
    left
    simpa [get_final_response, hm] using diagnostic_final_err e

theorem post_loop_diag_or_text (env : Env) (tr : Trace)
    (last : Option ModelResponse)
    (hlast : ∀ lr, last = some lr → lr ∈ tr.responses) :
    ∀ s tr2, post_loop env tr last = .ok (s, tr2) →
      diagnostic s ∨ model_text tr2 s := by
  intro s tr2 heq
  cases last with
  | none =>
    simp only [post_loop, Except.ok.injEq, Prod.mk.injEq] at heq
    obtain ⟨hs, -⟩ := heq
    exact hs ▸ Or.inl diagnostic_no_response
  | some lr =>
    by_cases h : has_tool_calls lr = true
    · simp only [post_loop, h, if_true, Except.ok.injEq] at heq
      have hs : s = (get_final_response env tr).1 := by rw [heq]
      have ht2 : tr2 = (get_final_response env tr).2 := by rw [heq]
      subst hs; subst ht2
      exact get_final_response_diag_or_text env tr
    · simp only [post_loop, h, if_false, Except.ok.injEq, Prod.mk.injEq] at heq
      obtain ⟨hs, htr⟩ := heq
      rcases extract_first_text_diag_or_mem lr.content with hd | hmem
      · exact Or.inl (by simpa [extract_text_response] using hd)
      · right
        exact ⟨lr, hlast lr rfl, by simpa [extract_text_response] using hmem⟩

/-- Every string the loop returns is a fixed-prefix diagnostic or the text of
a content block of some logged model response. -/
theorem seq_loop_diag_or_text (env : Env) :
    ∀ (fuel : Nat) (tr : Trace) (last : Option ModelResponse),
      (∀ lr, last = some lr → lr ∈ tr.responses) →
      ∀ s tr2, seq_loop env fuel tr last = .ok (s, tr2) →
        diagnostic s ∨ model_text tr2 s := by
  intro fuel
  induction fuel with
  | zero =>
    intro tr last hlast s tr2 heq
    exact post_loop_diag_or_text env tr last hlast s tr2 (by simpa [seq_loop_zero] using heq)
  | succ fuel ih =>
    intro tr last hlast s tr2 heq
    rw [seq_loop_succ] at heq
    by_cases hc : tr.state.can_continue = true
    · rw [if_pos hc] at heq
      cases hrun : execute_tool_round env tr with
      | error etr =>
        rw [hrun] at heq
        simp at heq
      | ok rt =>
        obtain ⟨resp, tr1⟩ := rt
        rw [hrun] at heq
        dsimp only at heq
        have hresp := (execute_tool_round_ok_facts env tr tr1 resp hrun).2.2.2.2
        by_cases ht : has_tool_calls resp = true
        · rw [if_pos ht] at heq
          refine ih { tr1 with state := tr1.state.advance_round } (some resp)
            ?_ s tr2 heq
          intro lr hlr
          cases hlr
          simp [hresp]
        · rw [if_neg ht] at heq
          simp only [Except.ok.injEq, Prod.mk.injEq] at heq
          obtain ⟨hs, htr⟩ := heq
          subst hs
          subst htr
          rcases extract_first_text_diag_or_mem resp.content with hd | hmem
          · exact Or.inl (by simpa [extract_text_response] using hd)
          · right
            exact ⟨resp, by simp [hresp],
              by simpa [extract_text_response] using hmem⟩
    · rw [if_neg hc] at heq
      exact post_loop_diag_or_text env tr last hlast s tr2 heq

theorem post_loop_messages (env : Env) (tr : Trace) (last : Option ModelResponse) :
    (out_trace (post_loop env tr last)).state.messages = tr.state.messages := by
  cases last with
  | none => simp [post_loop, out_trace]
  | some lr =>
    by_cases h : has_tool_calls lr = true
    · simp [post_loop, h, out_trace, (get_final_response_facts env tr).2.1]
    · simp [post_loop, h, out_trace]

/-- Over the whole loop the transcript only grows: whatever execution path is
taken, the initial messages are a prefix of the final ones. -/
theorem seq_loop_messages_extend (env : Env) :
    ∀ (fuel : Nat) (tr : Trace) (last : Option ModelResponse),
      ∃ suf, (out_trace (seq_loop env fuel tr last)).state.messages =
        tr.state.messages ++ suf := by
  intro fuel
  induction fuel with
  | zero =>
    intro tr last
    exact ⟨[], by simp [seq_loop_zero, post_loop_messages]⟩
  | succ fuel ih =>
    intro tr last
    rw [seq_loop_succ]
    by_cases hc : tr.state.can_continue = true
    · rw [if_pos hc]
      cases hrun : execute_tool_round env tr with
      | error etr =>
        obtain ⟨e, tr1⟩ := etr
        dsimp only
        have h1 := (execute_tool_round_error_facts env tr tr1 e hrun).2
        exact ⟨[], by simp [out_trace, h1]⟩
      | ok rt =>
        obtain ⟨resp, tr1⟩ := rt
        dsimp only
        obtain ⟨suf0, hsuf0⟩ := execute_tool_round_messages_extend env tr tr1 resp hrun
        by_cases ht : has_tool_calls resp = true
        · rw [if_pos ht]
          obtain ⟨suf1, hsuf1⟩ :=
            ih { tr1 with state := tr1.state.advance_round } (some resp)
          refine ⟨suf0 ++ suf1, ?_⟩
          rw [hsuf1]
          simp [ToolRoundState.advance_round, hsuf0]
        · rw [if_neg ht]
          exact ⟨suf0, by simpa [out_trace] using hsuf0⟩
    · rw [if_neg hc]
      exact ⟨[], by simp [post_loop_messages]⟩

theorem run_tool_blocks_succeed (env : Env) (bs : List ContentBlock) :
    ∀ (st : ToolRoundState) (idx : Nat), all_tools_succeed env idx bs →
      (run_tool_blocks env st idx bs).toolIdx = idx + tool_use_count bs ∧
      (run_tool_blocks env st idx bs).state.has_errors = st.has_errors := by
  induction bs with
  | nil => intro st idx h; simp [run_tool_blocks, tool_use_count]
  | cons b rest ih =>
    intro st idx h
    cases b with
    | text s => simpa [run_tool_blocks, tool_use_count] using ih st idx h
    | other => simpa [run_tool_blocks, tool_use_count] using ih st idx h
    | toolUse id name input =>
      obtain ⟨⟨r, hr⟩, hrest⟩ := h
      have := ih (st.add_tool_execution name input r) (idx + 1) hrest
      simp only [run_tool_blocks, hr, tool_use_count]
      constructor
      · rw [this.1]; omega
      · rw [this.2]; simp [ToolRoundState.add_tool_execution]

/-- If the tool-use blocks split as a fully-successful left part followed by
a failing call, the round's dispatch loop returns exactly the left part's
results, the left part's state marked errored, and stops after the failing
invocation — the right part `bs2` is never dispatched. -/
theorem run_tool_blocks_fail_at (env : Env) (bs1 : List ContentBlock)
    (tid name : String) (input : ToolInput) (e : String)
    (bs2 : List ContentBlock) :
    ∀ (st : ToolRoundState) (idx : Nat),
      all_tools_succeed env idx bs1 →
      env.execTool (idx + tool_use_count bs1) name input = .error e →
      run_tool_blocks env st idx (bs1 ++ .toolUse tid name input :: bs2) =
        { results := (run_tool_blocks env st idx bs1).results,
          state := { (run_tool_blocks env st idx bs1).state with
                     has_errors := true },
          toolIdx := idx + tool_use_count bs1 + 1 } := by
  induction bs1 with
  | nil =>
    intro st idx hsucc hfail
    simp only [tool_use_count, Nat.add_zero] at hfail
    simp [run_tool_blocks, hfail, tool_use_count]
  | cons b rest ih =>
    intro st idx hsucc hfail
    cases b with
    | text s =>
      simp only [List.cons_append, run_tool_blocks]
      exact ih st idx hsucc (by simpa [tool_use_count] using hfail)
    | other =>
      simp only [List.cons_append, run_tool_blocks]
      exact ih st idx hsucc (by simpa [tool_use_count] using hfail)
    | toolUse id2 name2 input2 =>
      obtain ⟨⟨r, hr⟩, hrest⟩ := hsucc
      have hfail2 : env.execTool (idx + 1 + tool_use_count rest) name input =
          .error e := by
        have harith : idx + tool_use_count (ContentBlock.toolUse id2 name2 input2 :: rest) =
            idx + 1 + tool_use_count rest := by
          simp [tool_use_count]; omega
        rw [← harith]; exact hfail
      have hih := ih (st.add_tool_execution name2 input2 r) (idx + 1) hrest hfail2
      simp only [List.cons_append, run_tool_blocks, hr, tool_use_count,
        List.append_eq]
      rw [hih]
      simp only [ToolLoopOut.mk.injEq]
      refine ⟨trivial, trivial, by omega⟩

/-! ### Helper lemmas for the claim theorems -/

theorem run_tool_blocks_no_tools (env : Env) (bs : List ContentBlock)
    (h : ∀ b ∈ bs, b.btype ≠ "tool_use") :
    ∀ (st : ToolRoundState) (idx : Nat),
      run_tool_blocks env st idx bs = { results := [], state := st, toolIdx := idx } := by
  induction bs with
  | nil => intro st idx; simp [run_tool_blocks]
  | cons b rest ih =>
    intro st idx
    cases b with
    | text s =>
      exact ih (fun b hb => h b (List.mem_cons_of_mem _ hb)) st idx
    | other =>
      exact ih (fun b hb => h b (List.mem_cons_of_mem _ hb)) st idx
    | toolUse id name input =>
      exact absurd rfl (h (.toolUse id name input) (List.mem_cons_self _ _))

theorem extract_first_text_no_text (bs : List ContentBlock)
    (h : ∀ b ∈ bs, b.has_text_attr = false) :
    extract_first_text bs = "Error: No valid response content received from AI." := by
  induction bs with
  | nil => rfl
  | cons b rest ih =>
    cases b with
    | text s =>
      have := h (.text s) (List.mem_cons_self _ _)
      simp [ContentBlock.has_text_attr] at this
    | other => exact ih (fun b hb => h b (List.mem_cons_of_mem _ hb))
    | toolUse id name input =>
      exact ih (fun b hb => h b (List.mem_cons_of_mem _ hb))

theorem has_tool_calls_false_of (resp : ModelResponse)
    (h : ∀ b ∈ resp.content, b.btype ≠ "tool_use") :
    has_tool_calls resp = false := by
  simp only [has_tool_calls, List.any_eq_false]
  intro b hb
  simpa using h b hb

/-- A transport failure of the in-loop model call makes the loop raise,
carrying the incremented call count — the failed call is not retried. -/
theorem seq_loop_transport_error (env : Env) (fuel : Nat) (tr : Trace)
    (last : Option ModelResponse) (e : String)
    (hcc : tr.state.can_continue = true)
    (hm : env.model tr.modelCalls (round_request env tr.state) = .error e) :
    seq_loop env (fuel + 1) tr last =
      .error (e, { tr with modelCalls := tr.modelCalls + 1,
                           requests := tr.requests ++ [round_request env tr.state] }) := by
  rw [seq_loop_succ, if_pos hcc]
  simp only [execute_tool_round]
  rw [hm]

/-- A malformed in-loop model response (no text field anywhere, no tool-use
request) makes the loop return the fixed placeholder. -/
theorem seq_loop_malformed (env : Env) (fuel : Nat) (tr : Trace)
    (last : Option ModelResponse) (resp : ModelResponse)
    (hcc : tr.state.can_continue = true)
    (hm : env.model tr.modelCalls (round_request env tr.state) = .ok resp)
    (hmal : ∀ b ∈ resp.content, b.has_text_attr = false ∧ b.btype ≠ "tool_use") :
    ∃ tr2, seq_loop env (fuel + 1) tr last =
      .ok ("Error: No valid response content received from AI.", tr2) := by
  rw [seq_loop_succ, if_pos hcc]
  simp only [execute_tool_round]
  rw [hm]
  dsimp only
  rw [if_neg (by simp [has_tool_calls_false_of resp (fun b hb => (hmal b hb).2)])]
  have hext : extract_text_response (some resp) =
      "Error: No valid response content received from AI." := by
    simp only [extract_text_response]
    exact extract_first_text_no_text resp.content (fun b hb => (hmal b hb).1)
  rw [hext]
  exact ⟨_, rfl⟩

/-- Every string returned by `generate_response_with_sequential_tools` is a
fixed-prefix diagnostic or the text of a block of a logged model response. -/
theorem seq_result_diag_or_text (env : Env) (query : String)
    (ch : Option String) (mr : Nat) :
    diagnostic (generate_response_with_sequential_tools env query ch mr).1 ∨
    model_text (generate_response_with_sequential_tools env query ch mr).2
      (generate_response_with_sequential_tools env query ch mr).1 := by
  unfold generate_response_with_sequential_tools
  cases hres : seq_loop env mr (init_trace query ch mr) none with
  | ok st =>
    obtain ⟨s, tr⟩ := st
    dsimp only
    exact seq_loop_diag_or_text env mr (init_trace query ch mr) none
      (fun lr h => by cases h) s tr hres
  | error et =>
    obtain ⟨e, tr⟩ := et
    dsimp only
    exact Or.inl (diagnostic_seq_err e)

/-! ### Claim theorems -/

/-- C4: for every `ToolRoundState`, `can_continue` is true iff
`current_round ≤ max_rounds` and `has_errors` is false; in particular (with
no error recorded) at `current_round = max_rounds` it is true, and at
`current_round = max_rounds + 1` it is false. -/
theorem claim_C4_can_continue :
    (∀ s : ToolRoundState,
      s.can_continue = true ↔
        (s.current_round ≤ s.max_rounds ∧ s.has_errors = false)) ∧
    (∀ s : ToolRoundState, s.has_errors = false →
      ToolRoundState.can_continue { s with current_round := s.max_rounds } = true) ∧
    (∀ s : ToolRoundState,
      ToolRoundState.can_continue
        { s with current_round := s.max_rounds + 1 } = false) := by
  refine ⟨?_, ?_, ?_⟩
  · intro s
    simp [ToolRoundState.can_continue, Bool.not_eq_true']
  · intro s h
    simp [ToolRoundState.can_continue, h]
  · intro s
    have hlt : ¬ (s.max_rounds + 1 ≤ s.max_rounds) := by omega
    simp [ToolRoundState.can_continue, hlt]

/-- Witness for C4 at a concrete state with no recorded error. -/
theorem claim_C4_witness :
    (init_round_state "q" none 2).has_errors = false ∧
    ToolRoundState.can_continue
      { init_round_state "q" none 2 with
        current_round := (init_round_state "q" none 2).max_rounds } = true :=
  ⟨rfl, claim_C4_can_continue.2.1 (init_round_state "q" none 2) rfl⟩

/-- C3: one call of `generate_response_with_sequential_tools` issues at most
`max_rounds + 1` model-endpoint calls, over every behavior of the endpoint
and the tool executor. -/
theorem claim_C3_model_call_bound (env : Env) (query : String)
    (ch : Option String) (max_rounds : Nat) (h : 1 ≤ max_rounds) :
    (generate_response_with_sequential_tools env query ch max_rounds).2.modelCalls ≤
      max_rounds + 1 := by
  have hb := seq_loop_model_calls_bound env max_rounds
    (init_trace query ch max_rounds) none
  unfold generate_response_with_sequential_tools
  cases hres : seq_loop env max_rounds (init_trace query ch max_rounds) none with
  | ok st =>
    obtain ⟨s, tr⟩ := st
    dsimp only
    rw [hres] at hb
    simp only [out_trace, init_trace] at hb
    omega
  | error et =>
    obtain ⟨e, tr⟩ := et
    dsimp only
    rw [hres] at hb
    simp only [out_trace, init_trace] at hb
    omega

/-- Witness for C3: a concrete run with `max_rounds = 2` makes at most 3
model calls. -/
theorem claim_C3_witness :
    1 ≤ 2 ∧
    (generate_response_with_sequential_tools envDirect "q" none 2).2.modelCalls ≤ 3 :=
  ⟨by decide, claim_C3_model_call_bound envDirect "q" none 2 (by decide)⟩

/-- C1 (amended): a transport failure of the in-loop model call is caught by
the surrounding handler and converted into the returned string
`"Error during sequential tool execution: " ++ e`; exactly one endpoint call
is issued (no retry), and no exception reaches the caller. -/
theorem claim_C1_transport_to_string (env : Env) (query : String)
    (ch : Option String) (mr : Nat) (e : String) (h1 : 1 ≤ mr)
    (hm : env.model 0 (round_request env (init_round_state query ch mr)) = .error e) :
    (generate_response_with_sequential_tools env query ch mr).1 =
      "Error during sequential tool execution: " ++ e ∧
    (generate_response_with_sequential_tools env query ch mr).2.modelCalls = 1 := by
  obtain ⟨k, rfl⟩ : ∃ k, mr = k + 1 := ⟨mr - 1, by omega⟩
  have h1k : (1:Nat) ≤ k + 1 := by omega
  have hcc : (init_trace query ch (k + 1)).state.can_continue = true := by
    simp [init_trace, init_round_state, ToolRoundState.can_continue, h1k]
  have htr := seq_loop_transport_error env k (init_trace query ch (k + 1))
    none e hcc hm
  unfold generate_response_with_sequential_tools
  rw [htr]
  exact ⟨rfl, rfl⟩

/-- C1 counterexample: with the endpoint down, the claim's "propagated as a
fatal error, not converted into a returned string" fails — the operation
returns normally, with the converted message, after a single (unretried)
call. -/
theorem claim_C1_counterexample :
    (generate_response_with_sequential_tools envTransportDown "q" none 2).1 =
      "Error during sequential tool execution: down" ∧
    (generate_response_with_sequential_tools envTransportDown "q" none 2).2.modelCalls = 1 := by
  constructor
  · decide
  · decide

/-- Witness for the amended C1 at a concrete environment. -/
theorem claim_C1_witness :
    (generate_response_with_sequential_tools envTransportDown "q2" none 2).1 =
      "Error during sequential tool execution: down" ∧
    (generate_response_with_sequential_tools envTransportDown "q2" none 2).2.modelCalls = 1 :=
  claim_C1_transport_to_string envTransportDown "q2" none 2 "down" (by decide) rfl

/-- C8 (amended): the returned string is non-empty provided the model itself
never returns an empty text block among the logged responses; the claim as
stated (non-empty over EVERY endpoint behavior) fails, see the
counterexample. -/
theorem claim_C8_nonempty (env : Env) (query : String) (ch : Option String)
    (mr : Nat)
    (h : ∀ r ∈ (generate_response_with_sequential_tools env query ch mr).2.responses,
      ∀ b ∈ r.content, block_text_nonempty b = true) :
    (generate_response_with_sequential_tools env query ch mr).1 ≠ "" := by
  rcases seq_result_diag_or_text env query ch mr with hd | ⟨r, hr, hb⟩
  · exact diagnostic_ne_empty _ hd
  · have hne := h r hr _ hb
    simp only [block_text_nonempty] at hne
    intro hempty
    rw [hempty] at hne
    simp only [Bool.not_eq_true'] at hne
    exact absurd hne (by decide)

/-- C8 counterexample: an endpoint answering with an empty text block makes
the operation return the empty string. -/
theorem claim_C8_counterexample :
    (generate_response_with_sequential_tools envEmptyText "q" none 2).1 = "" := by
  decide

/-- Witness for the amended C8 at a concrete environment. -/
theorem claim_C8_witness :
    (∀ r ∈ (generate_response_with_sequential_tools envDirect "q" none 2).2.responses,
      ∀ b ∈ r.content, block_text_nonempty b = true) ∧
    (generate_response_with_sequential_tools envDirect "q" none 2).1 ≠ "" :=
  ⟨by decide, claim_C8_nonempty envDirect "q" none 2 (by decide)⟩

/-- C7: a malformed/empty first model response (no content blocks, or no
block carrying a text field and no tool-use request) makes the operation
return the diagnostic placeholder rather than raising; and every string it
can return is either model text or carries the fixed prefix `"Error"`. -/
theorem claim_C7_malformed_and_prefixed :
    (∀ (env : Env) (query : String) (ch : Option String) (mr : Nat)
       (resp : ModelResponse), 1 ≤ mr →
      env.model 0 (round_request env (init_round_state query ch mr)) = .ok resp →
      (∀ b ∈ resp.content, b.has_text_attr = false ∧ b.btype ≠ "tool_use") →
      (generate_response_with_sequential_tools env query ch mr).1 =
        "Error: No valid response content received from AI.") ∧
    (∀ (env : Env) (query : String) (ch : Option String) (mr : Nat),
      diagnostic (generate_response_with_sequential_tools env query ch mr).1 ∨
      model_text (generate_response_with_sequential_tools env query ch mr).2
        (generate_response_with_sequential_tools env query ch mr).1) := by
  constructor
  · intro env query ch mr resp h1 hm hmal
    obtain ⟨k, rfl⟩ : ∃ k, mr = k + 1 := ⟨mr - 1, by omega⟩
    have h1k : (1:Nat) ≤ k + 1 := by omega
    have hcc : (init_trace query ch (k + 1)).state.can_continue = true := by
      simp [init_trace, init_round_state, ToolRoundState.can_continue, h1k]
    obtain ⟨tr2, hres⟩ := seq_loop_malformed env k (init_trace query ch (k + 1))
      none resp hcc hm hmal
    unfold generate_response_with_sequential_tools
    rw [hres]
  · exact fun env query ch mr => seq_result_diag_or_text env query ch mr

/-- Witness for C7: a response whose only block has no text field and is not
a tool-use request yields the placeholder. -/
theorem claim_C7_witness :
    (generate_response_with_sequential_tools envMalformed "q" none 2).1 =
      "Error: No valid response content received from AI." :=
  claim_C7_malformed_and_prefixed.1 envMalformed "q" none 2
    { stop_reason := "end_turn", content := [.other] } (by decide) rfl (by decide)

/-- C2 (amended): when a tool execution fails in a round whose response
requested tool use, the round state is marked errored and the loop exits —
but the string returned is NOT the text of the response already obtained:
since that response had tool calls, the code proceeds to the forced
tool-free final call (one additional model call) and returns its result. -/
theorem claim_C2_tool_failure_final_call (env : Env) (fuel : Nat)
    (tr tr1 : Trace) (last : Option ModelResponse) (resp : ModelResponse)
    (hcc : tr.state.can_continue = true)
    (hrun : execute_tool_round env tr = .ok (resp, tr1))
    (herr : tr1.state.has_errors = true)
    (htc : has_tool_calls resp = true) :
    seq_loop env (fuel + 1) tr last =
      .ok (get_final_response env
        { tr1 with state := tr1.state.advance_round }) ∧
    (get_final_response env
      { tr1 with state := tr1.state.advance_round }).2.modelCalls =
        tr1.modelCalls + 1 := by
  constructor
  · rw [seq_loop_succ, if_pos hcc, hrun]
    dsimp only
    rw [if_pos htc]
    have hccf : ¬ (({ tr1 with state := tr1.state.advance_round } : Trace).state.can_continue = true) := by
      simp [ToolRoundState.advance_round, ToolRoundState.can_continue, herr]
    cases fuel with
    | zero =>
      rw [seq_loop_zero]
      simp [post_loop, htc]
    | succ f =>
      rw [seq_loop_succ, if_neg hccf]
      simp [post_loop, htc]
  · exact (get_final_response_facts env _).1

/-- C2 counterexample: the tool executor fails on round 1, yet the returned
string is the fresh final call's text (a second model call), not the text
of the response obtained before the failure. -/
theorem claim_C2_counterexample :
    (generate_response_with_sequential_tools envToolFail "q" none 2).1 = "final" ∧
    (generate_response_with_sequential_tools envToolFail "q" none 2).2.modelCalls = 2 ∧
    extract_text_response (some respToolText) = "partial" ∧
    ("final" : String) ≠ "partial" := by
  exact ⟨by decide, by decide, by decide, by decide⟩

/-- Witness for the amended C2 at a concrete failing run. -/
theorem claim_C2_witness :
    seq_loop envToolFail 2 (init_trace "q" none 2) none =
      .ok (get_final_response envToolFail
        { tool_phase envToolFail respToolText trToolFailMid with
          state := (tool_phase envToolFail respToolText trToolFailMid).state.advance_round }) ∧
    (get_final_response envToolFail
      { tool_phase envToolFail respToolText trToolFailMid with
        state := (tool_phase envToolFail respToolText trToolFailMid).state.advance_round }).2.modelCalls =
      (tool_phase envToolFail respToolText trToolFailMid).modelCalls + 1 :=
  claim_C2_tool_failure_final_call envToolFail 1 (init_trace "q" none 2)
    (tool_phase envToolFail respToolText trToolFailMid) none respToolText
    (by decide) rfl (by decide) (by decide)

/-- C5: if the round loop exits with its budget exhausted
(`current_round > max_rounds`) while the last response still contained
tool-use requests, exactly one additional model call is issued — with the
accumulated transcript and system content but without tool descriptors —
and the operation returns that call's extracted text when the call
completes. -/
theorem claim_C5_forced_final (env : Env) (fuel : Nat) (tr : Trace)
    (lr : ModelResponse)
    (hbudget : tr.state.max_rounds < tr.state.current_round)
    (htc : has_tool_calls lr = true) :
    seq_loop env fuel tr (some lr) = .ok (get_final_response env tr) ∧
    (get_final_response env tr).2.modelCalls = tr.modelCalls + 1 ∧
    (get_final_response env tr).2.requests = tr.requests ++
      [{ messages := tr.state.messages, system := tr.state.system_content,
         tools := false }] ∧
    (∀ resp, env.model tr.modelCalls
        { messages := tr.state.messages, system := tr.state.system_content,
          tools := false } = .ok resp →
      (get_final_response env tr).1 = extract_text_response (some resp)) := by
  have hcc : ¬ (tr.state.can_continue = true) := by
    simp only [ToolRoundState.can_continue, Bool.and_eq_true, decide_eq_true_eq]
    rintro ⟨hle, -⟩
    omega
  have hpost : post_loop env tr (some lr) = .ok (get_final_response env tr) := by
    simp [post_loop, htc]
  have hloop : seq_loop env fuel tr (some lr) = .ok (get_final_response env tr) := by
    cases fuel with
    | zero => rw [seq_loop_zero]; exact hpost
    | succ f => rw [seq_loop_succ, if_neg hcc]; exact hpost
  have hf := get_final_response_facts env tr
  exact ⟨hloop, hf.1, hf.2.2.1, fun resp hm => (hf.2.2.2.1 resp hm).1⟩

/-- Witness for C5 at a concrete exhausted-budget state. -/
theorem claim_C5_witness :
    (seq_loop envDirect 0 trBudgetSpent (some respToolText) =
      .ok (get_final_response envDirect trBudgetSpent)) ∧
    (get_final_response envDirect trBudgetSpent).2.modelCalls =
      trBudgetSpent.modelCalls + 1 ∧
    (get_final_response envDirect trBudgetSpent).2.requests =
      trBudgetSpent.requests ++
      [{ messages := trBudgetSpent.state.messages,
         system := trBudgetSpent.state.system_content, tools := false }] ∧
    (∀ resp, envDirect.model trBudgetSpent.modelCalls
        { messages := trBudgetSpent.state.messages,
          system := trBudgetSpent.state.system_content, tools := false } = .ok resp →
      (get_final_response envDirect trBudgetSpent).1 =
        extract_text_response (some resp)) :=
  claim_C5_forced_final envDirect 0 trBudgetSpent respToolText
    (by decide) (by decide)

/-- C6: when a tool execution raises inside a round, the round state is
marked errored, the executor is invoked exactly up through the failing call
(no later tool-use request of the round is dispatched, whatever follows the
failing block), and the batch of results already collected is still appended
as a single user turn after the assistant turn when it is non-empty. -/
theorem claim_C6_partial_batch (env : Env) (tr : Trace) (resp : ModelResponse)
    (tid name : String) (input : ToolInput) (e : String)
    (bs1 bs2 : List ContentBlock)
    (hm : env.model tr.modelCalls (round_request env tr.state) = .ok resp)
    (hsr : resp.stop_reason = "tool_use")
    (htm : env.tool_manager = true)
    (hc : resp.content = bs1 ++ ContentBlock.toolUse tid name input :: bs2)
    (hpre : all_tools_succeed env tr.toolCalls bs1)
    (hfail : env.execTool (tr.toolCalls + tool_use_count bs1) name input =
      .error e) :
    ∃ tr1, execute_tool_round env tr = .ok (resp, tr1) ∧
      tr1.state.has_errors = true ∧
      tr1.toolCalls = tr.toolCalls + tool_use_count bs1 + 1 ∧
      tr1.state.messages =
        (tr.state.messages ++
          [{ role := "assistant", content := .blocks resp.content }]) ++
        (if (run_tool_blocks env (with_assistant_turn tr.state resp)
              tr.toolCalls bs1).results.isEmpty then []
         else [{ role := "user",
                 content := .results (run_tool_blocks env
                              (with_assistant_turn tr.state resp)
                              tr.toolCalls bs1).results }]) := by
  have hcond : (resp.stop_reason == "tool_use" && env.tool_manager) = true := by
    simp [hsr, htm]
  have hout := run_tool_blocks_fail_at env bs1 tid name input e bs2
    (with_assistant_turn tr.state resp) tr.toolCalls hpre hfail
  have hpres := (run_tool_blocks_preserves env bs1
    (with_assistant_turn tr.state resp) tr.toolCalls).2.2.1
  refine ⟨tool_phase env resp
    { tr with modelCalls := tr.modelCalls + 1,
              requests := tr.requests ++ [round_request env tr.state],
              responses := tr.responses ++ [resp] }, ?_, ?_, ?_, ?_⟩
  · simp only [execute_tool_round]
    rw [hm]
  · simp only [tool_phase, hcond, if_true]
    rw [hc, hout]
    by_cases hres : (run_tool_blocks env (with_assistant_turn tr.state resp)
        tr.toolCalls bs1).results.isEmpty = true
    · rw [if_pos hres]
    · rw [if_neg hres]
  · simp only [tool_phase, hcond, if_true]
    rw [hc, hout]
  · simp only [tool_phase, hcond, if_true]
    rw [hc, hout]
    by_cases hres : (run_tool_blocks env (with_assistant_turn tr.state resp)
        tr.toolCalls bs1).results.isEmpty = true
    · rw [if_pos hres, if_pos hres, hpres]
      simp [with_assistant_turn, hc]
    · rw [if_neg hres, if_neg hres, hpres]
      simp [with_assistant_turn, hc]

/-- Witness for C6: two requested tools, the second execution fails. -/
theorem claim_C6_witness :
    ∃ tr1, execute_tool_round envSecondToolFails (init_trace "q" none 2) =
        .ok (respTwoTools, tr1) ∧
      tr1.state.has_errors = true ∧
      tr1.toolCalls = (init_trace "q" none 2).toolCalls +
        tool_use_count [ContentBlock.toolUse "a" "t1" []] + 1 ∧
      tr1.state.messages =
        ((init_trace "q" none 2).state.messages ++
          [{ role := "assistant", content := .blocks respTwoTools.content }]) ++
        (if (run_tool_blocks envSecondToolFails
              (with_assistant_turn (init_trace "q" none 2).state respTwoTools)
              (init_trace "q" none 2).toolCalls
              [ContentBlock.toolUse "a" "t1" []]).results.isEmpty then []
         else [{ role := "user",
                 content := .results (run_tool_blocks envSecondToolFails
                              (with_assistant_turn (init_trace "q" none 2).state respTwoTools)
                              (init_trace "q" none 2).toolCalls
                              [ContentBlock.toolUse "a" "t1" []]).results }]) :=
  claim_C6_partial_batch envSecondToolFails (init_trace "q" none 2) respTwoTools
    "b" "t2" [] "boom" [ContentBlock.toolUse "a" "t1" []] []
    rfl rfl rfl (by decide) ⟨⟨"r0", rfl⟩, trivial⟩ rfl

/-- C9: within one call of the orchestrator the transcript only grows by
appending — per round, nothing, the assistant turn, or the assistant turn
followed by a single user-role batch turn — and over the whole loop the
initial messages remain a prefix of the final ones; no earlier entry is
modified or removed. -/
theorem claim_C9_append_only :
    (∀ (env : Env) (tr tr1 : Trace) (resp : ModelResponse),
      execute_tool_round env tr = .ok (resp, tr1) →
        tr1.state.messages = tr.state.messages ∨
        tr1.state.messages = tr.state.messages ++
          [{ role := "assistant", content := .blocks resp.content }] ∨
        ∃ batch, batch ≠ [] ∧ tr1.state.messages = tr.state.messages ++
          [{ role := "assistant", content := .blocks resp.content },
           { role := "user", content := .results batch }]) ∧
    (∀ (env : Env) (fuel : Nat) (tr : Trace) (last : Option ModelResponse),
      ∃ suf, (out_trace (seq_loop env fuel tr last)).state.messages =
        tr.state.messages ++ suf) :=
  ⟨execute_tool_round_messages_shape, seq_loop_messages_extend⟩

/-- Witness for C9 on a concrete round and a concrete whole run. -/
theorem claim_C9_witness :
    ((tool_phase envDirect respPlainFinal trDirectMid).state.messages =
        (init_trace "q" none 2).state.messages ∨
      (tool_phase envDirect respPlainFinal trDirectMid).state.messages =
        (init_trace "q" none 2).state.messages ++
          [{ role := "assistant", content := .blocks respPlainFinal.content }] ∨
      ∃ batch, batch ≠ [] ∧
        (tool_phase envDirect respPlainFinal trDirectMid).state.messages =
          (init_trace "q" none 2).state.messages ++
          [{ role := "assistant", content := .blocks respPlainFinal.content },
           { role := "user", content := .results batch }]) ∧
    (∃ suf, (out_trace (seq_loop envDirect 2 (init_trace "q" none 2) none)).state.messages =
      (init_trace "q" none 2).state.messages ++ suf) :=
  ⟨claim_C9_append_only.1 envDirect (init_trace "q" none 2)
     (tool_phase envDirect respPlainFinal trDirectMid) respPlainFinal rfl,
   claim_C9_append_only.2 envDirect 2 (init_trace "q" none 2) none⟩

/-- C10: in the single-call path, when the first response requests tool use
and the executor raises, the exception propagates uncaught out of
`generate_response` — the tool loop of `_handle_tool_execution` has no
handler, unlike the sequential path's round loop. -/
theorem claim_C10_tool_error_propagates (env : Env) (query : String)
    (ch : Option String) (resp : ModelResponse) (e : String)
    (hm : env.model 0 (direct_request env query (build_system_content ch)) = .ok resp)
    (hsr : resp.stop_reason = "tool_use")
    (htm : env.tool_manager = true)
    (hfail : run_tools_unprotected env 0 resp.content = .error e) :
    generate_response env query ch = .error e := by
  simp only [generate_response]
  rw [hm]
  dsimp only
  rw [if_pos (show (resp.stop_reason == "tool_use" && env.tool_manager) = true by
    simp [hsr, htm])]
  simp only [handle_tool_execution]
  rw [hfail]

/-- Witness for C10: a raising executor makes `generate_response` itself
raise. -/
theorem claim_C10_witness :
    generate_response envToolFail "q" none = .error "boom" :=
  claim_C10_tool_error_propagates envToolFail "q" none respToolText "boom"
    rfl rfl rfl rfl
